import Mathlib

/-!
Verification development for the SpeechAnalysis backend
(`src/backend/main.py`, `src/backend/app.py`, `src/backend/models/*.py`).

The Python code is shallowly embedded: numpy arrays of audio amplitudes
become lists of exact rationals (IEEE rounding of amplitudes is abstracted;
the float32/float64 distinction is kept as an explicit dtype tag), the
file system visible to a request becomes a `Finset String` of existing
paths, wall-clock instants become rationals, and model-backend inference
outputs (logits) become real-valued vectors.  External libraries
(librosa, torch, werkzeug, Python builtins) are not part of the
repository; where their behaviour matters it is modelled from the spec,
and each such definition says so in its doc comment.
-/

namespace SpeechAnalysis

/-! ## Data model: numpy-like arrays -/

/-- Element dtype of a numpy array (only the distinction the code inspects). -/
inductive DType where
  | float32 : DType
  | float64 : DType
  deriving DecidableEq, Repr

/-- Shape of an audio array: 1-D (mono samples) or 2-D (channels × samples),
as distinguished by `len(audio_data.shape) > 1` in `preprocess_audio`. -/
inductive Shape where
  | oneD (samples : List ℚ) : Shape
  | twoD (rows : List (List ℚ)) : Shape
  deriving DecidableEq, Repr

/-- A numpy audio array: its shape (with the amplitude data) and its dtype. -/
structure NpArray where
  shape : Shape
  dtype : DType
  deriving DecidableEq, Repr

/-- Number of channels an array represents: a 1-D array is one channel,
a 2-D array has one channel per row. -/
def Shape.channelCount : Shape → ℕ
  | .oneD _ => 1
  | .twoD rows => rows.length

/-- The mono sample list of a 1-D array (a 2-D array has none; this accessor
is only meaningful for the canonical, mono output of the normalizer). -/
def Shape.monoSamples : Shape → List ℚ
  | .oneD s => s
  | .twoD _ => []

/-! ## Configuration constants (`src/backend/main.py` lines 21-24) -/

def UPLOAD_FOLDER : String := "uploads"

def ALLOWED_EXTENSIONS : List String := ["wav", "mp3", "flac", "m4a"]

def SAMPLING_RATE : ℕ := 16000

def MAX_DURATION_SECONDS : ℕ := 120

/-! ## External collaborators, modelled from the spec -/

/-- Modelled from the spec: `librosa.to_mono` (external library), which the
spec describes as an equal-weight downmix — "if the signal has more than one
channel, channels are averaged (equal-weight downmix) into one channel". -/
def to_mono (rows : List (List ℚ)) : List ℚ :=
  let n : ℕ := (rows.head?.map List.length).getD 0
  (List.range n).map (fun i => ((rows.map (fun r => r.getD i 0)).sum) / (rows.length : ℚ))

/-- Modelled from the spec: `librosa.resample` (external library), a
band-limited resampler of which the spec only fixes that it "must preserve
signal duration (sample count scales by rate ratio)"; sample values are taken
by nearest-index mapping, and the output length is the ceiling of the scaled
length as in librosa. -/
def librosa_resample (s : List ℚ) (origSr targetSr : ℕ) : List ℚ :=
  let m : ℕ := (s.length * targetSr + origSr - 1) / origSr
  (List.range m).map (fun i => s.getD (i * origSr / targetSr) 0)

/-! ## `allowed_file` (`src/backend/main.py` lines 33-35) -/

/-- The extension after the last dot: Python's `filename.rsplit('.', 1)[1]`
(meaningful only when the filename contains a dot, exactly as in the code,
where the short-circuiting `and` guards the index). -/
def extAfterLastDot (s : String) : String :=
  ⟨((s.data.reverse.takeWhile (fun c => c ≠ '.')).reverse)⟩

/-- Python's `str.lower()` on the (ASCII) extension, character by
character. -/
def lowerString (s : String) : String := ⟨s.data.map Char.toLower⟩

/-- Embeds `allowed_file`: the filename contains a dot and its lowercased extension
is in the allowed set. -/
def allowed_file (filename : String) : Bool :=
  filename.data.contains ('.') && (ALLOWED_EXTENSIONS.contains (lowerString (extAfterLastDot filename)))

/-! ## `clip_audio_to_max_duration` (`src/backend/main.py` lines 37-52) -/

/-- Embeds `clip_audio_to_max_duration`: if the duration `len(audio_data)/sr` is
within the bound, return the signal unchanged and `False`; otherwise return
the first `int(max_duration * sr)` samples and `True`. -/
def clip_audio_to_max_duration (audio_data : List ℚ) (sr : ℕ)
    (max_duration : ℕ := MAX_DURATION_SECONDS) : List ℚ × Bool :=
  if ((audio_data.length : ℚ) / (sr : ℚ)) ≤ (max_duration : ℚ) then
    (audio_data, false)
  else
    (audio_data.take (max_duration * sr), true)

/-! ## `preprocess_audio` (`src/backend/main.py` lines 132-167) -/

/-- Embeds `preprocess_audio`: downmix to mono if 2-D, resample to 16000 Hz if
needed, clip to the maximum duration, cast to float32; returns the processed
array, the (now canonical) sample rate, and the was-clipped flag. -/
def preprocess_audio (a : NpArray) (sr : ℕ) : NpArray × ℕ × Bool :=
  let s1 : List ℚ :=
    match a.shape with
    | .oneD s => s
    | .twoD rows => to_mono rows
  let step2 : List ℚ × ℕ :=
    if sr ≠ SAMPLING_RATE then (librosa_resample s1 sr SAMPLING_RATE, SAMPLING_RATE)
    else (s1, sr)
  let step3 : List ℚ × Bool := clip_audio_to_max_duration step2.1 step2.2
  (⟨.oneD step3.1, .float32⟩, step2.2, step3.2)

/-- The mono amplitude list `preprocess_audio` starts from: the samples of a
1-D array, the equal-weight downmix of a 2-D one. -/
def Shape.asMono : Shape → List ℚ
  | .oneD s => s
  | .twoD rows => to_mono rows

/-! ## Temp-file naming (`src/backend/main.py` lines 184-186) -/

/-- Modelled from the spec: Python's `str` on the non-negative integer
`int(time.time())` — the usual base-10 decimal rendering used by the
f-string `f"temp_{int(time.time())}_{file.filename}"`. -/
def pyNatChars (n : ℕ) : List Char :=
  if n = 0 then ['0'] else ((Nat.digits 10 n).map Nat.digitChar).reverse

/-- The decimal rendering as a `String`. -/
def pyStr (n : ℕ) : String := ⟨pyNatChars n⟩

/-- The generated temp filename `f"temp_{int(time.time())}_{file.filename}"`,
where `now` is the integer-second timestamp of the request. -/
def tempName (now : ℕ) (filename : String) : String :=
  "temp_" ++ pyStr now ++ "_" ++ filename

/-- Embeds `os.path.join(UPLOAD_FOLDER, filename)` for the generated temp name. -/
def tempPath (now : ℕ) (filename : String) : String :=
  UPLOAD_FOLDER ++ "/" ++ tempName now filename

/-! ## Python rounding, modelled from the spec -/

/-- Modelled from the spec: Python's banker's rounding of a real value to the
nearest integer — round half to even (time values carried as exact
rationals). -/
def roundHalfEven (x : ℚ) : ℤ :=
  let f : ℤ := ⌊x⌋
  let r : ℚ := x - (f : ℚ)
  if r < 1/2 then f
  else if (1 : ℚ)/2 < r then f + 1
  else if f % 2 = 0 then f else f + 1

/-- Python's `round(x, 3)` as used on the reported processing times. -/
def pyRound3 (x : ℚ) : ℚ := ((roundHalfEven (1000 * x) : ℤ) : ℚ) / 1000

/-! ## Request-level model: errors, environment, events -/

/-- An HTTP error response (`fastapi.HTTPException`): status code and detail
message. -/
structure HTTPException where
  status : ℕ
  detail : String
  deriving DecidableEq, Repr

/-- Behaviour of the request's external collaborators: `decode` is the
outcome of `librosa.load(filepath, sr=None)` (decoded waveform and native
rate, or the decoder's error message), and `preprocessFails` injects an
exception raised inside the preprocessing step (e.g. a resampler failure). -/
structure Env where
  decode : Except String (NpArray × ℕ)
  preprocessFails : Bool

/-- Observable steps a request performs, in program order. -/
inductive PEvent where
  | wroteTemp (path : String) : PEvent
  | decoded : PEvent
  | preprocessed : PEvent
  | removedTemp (path : String) : PEvent
  | predictedAgeGender : PEvent
  | predictedNationality : PEvent
  | predictedEmotion : PEvent
  deriving DecidableEq, Repr

/-! ## `process_audio_file` (`src/backend/main.py` lines 169-220) -/

/-- Embeds `process_audio_file`: validate the filename, write the upload to the
uniquely named temp path, decode it, preprocess it, and remove the temp file
in the `finally` block on every exit path.  The visible file system is the
`Finset` of existing paths; `now` is the request's `int(time.time())`. -/
def process_audio_file (fs : Finset String) (now : ℕ) (filename : String) (env : Env) :
    Except HTTPException (NpArray × ℕ × Bool) × Finset String × List PEvent :=
  if filename = "" then
    (.error ⟨400, "No file selected"⟩, fs, [])
  else if allowed_file filename = false then
    (.error ⟨400, "Invalid file type. Allowed: wav, mp3, flac, m4a"⟩, fs, [])
  else
    let filepath := tempPath now filename
    let fs1 := insert filepath fs
    match env.decode with
    | .error msg =>
        (.error ⟨500, "Error processing audio file: " ++ msg⟩, fs1.erase filepath,
         [.wroteTemp filepath, .removedTemp filepath])
    | .ok (audio, sr) =>
        if env.preprocessFails then
          (.error ⟨500, "Error processing audio file: preprocessing error"⟩,
           fs1.erase filepath, [.wroteTemp filepath, .decoded, .removedTemp filepath])
        else
          (.ok (preprocess_audio audio sr), fs1.erase filepath,
           [.wroteTemp filepath, .decoded, .preprocessed, .removedTemp filepath])

/-! ## `predict_from_file` (`src/backend/app.py` lines 187-229) -/

/-- Behaviour of the Flask variant's collaborators: the decode outcome and
whether the in-request prediction raises. -/
structure FlaskEnv where
  decode : Except String (List ℚ × ℕ)
  predictFails : Bool

/-- The Flask variant `predict_from_file`: model/file-part/filename checks,
save to `uploads/<secure_filename>`, decode, predict, remove the file on
success; on an exception remove it if it exists.  `securedName` stands for
the result of werkzeug's `secure_filename` (external library). -/
def predict_from_file (fs : Finset String) (modelLoaded : Bool) (hasFilePart : Bool)
    (filename : String) (securedName : String) (env : FlaskEnv) :
    Except String Unit × Finset String :=
  if modelLoaded = false then (.error ("Model not loaded"), fs)
  else if hasFilePart = false then (.error ("No file uploaded"), fs)
  else if filename = "" then (.error ("No file selected"), fs)
  else if allowed_file filename then
    let filepath := UPLOAD_FOLDER ++ "/" ++ securedName
    let fs1 := insert filepath fs
    match env.decode with
    | .error msg => (.error msg, fs1.erase filepath)
    | .ok _ =>
        if env.predictFails then (.error ("Prediction error"), fs1.erase filepath)
        else (.ok (), fs1.erase filepath)
  else (.error ("Invalid file type"), fs)

/-! ## `predict_all` (`src/backend/main.py` lines 382-460) -/

/-- State of the three global model adapters at request time; the payload
carried by a loaded adapter stands for the (opaque, backend-computed)
prediction it produces for the request's canonical signal. -/
structure Models (α β γ : Type) where
  age_gender : Option α
  nationality : Option β
  emotion : Option γ
  deriving DecidableEq, Repr

/-- The eight `time.time()` observations `predict_all` makes, in program
order. -/
structure Timeline where
  endpointStart : ℚ
  ageStart : ℚ
  ageEnd : ℚ
  natStart : ℚ
  natEnd : ℚ
  emoStart : ℚ
  emoEnd : ℚ
  endpointEnd : ℚ
  deriving DecidableEq, Repr

/-- Wall-clock instants occur in program order. -/
def Timeline.Mono (t : Timeline) : Prop :=
  t.endpointStart ≤ t.ageStart ∧ t.ageStart ≤ t.ageEnd ∧ t.ageEnd ≤ t.natStart ∧
  t.natStart ≤ t.natEnd ∧ t.natEnd ≤ t.emoStart ∧ t.emoStart ≤ t.emoEnd ∧
  t.emoEnd ≤ t.endpointEnd

/-- The `processing_time` object of the predict-all response. -/
structure ProcessingTime where
  total : ℚ
  age_gender : ℚ
  nationality : ℚ
  emotion : ℚ
  deriving DecidableEq, Repr

/-- The `audio_info` object of a prediction response. -/
structure AudioInfo where
  was_clipped : Bool
  max_duration_seconds : ℕ
  deriving DecidableEq, Repr

/-- The predict-all success response body. -/
structure AggregatedResponse (α β γ : Type) where
  predictions : α × β × γ
  processing_time : ProcessingTime
  audio_info : AudioInfo
  warning : Option String
  deriving DecidableEq, Repr

/-- The clipping warning attached when `was_clipped` is true. -/
def CLIP_WARNING : String :=
  "Audio was longer than 120 seconds and was automatically clipped to the first 120 seconds for analysis."

/-- Embeds `predict_all`: check all three adapters are loaded, then ingest and
preprocess once, run the three predictions, and assemble the response; the
reported total time is the whole endpoint span, the per-family times the
three prediction spans. -/
def predict_all {α β γ : Type} (ms : Models α β γ) (tl : Timeline) (fs : Finset String)
    (now : ℕ) (filename : String) (env : Env) :
    Except HTTPException (AggregatedResponse α β γ) × Finset String × List PEvent :=
  match ms.age_gender with
  | none => (.error ⟨500, "Age & gender model not loaded"⟩, fs, [])
  | some ag =>
    match ms.nationality with
    | none => (.error ⟨500, "Nationality model not loaded"⟩, fs, [])
    | some na =>
      match ms.emotion with
      | none => (.error ⟨500, "Emotion model not loaded"⟩, fs, [])
      | some em =>
        match process_audio_file fs now filename env with
        | (.error e, fs2, ev) => (.error e, fs2, ev)
        | (.ok r, fs2, ev) =>
          (.ok { predictions := (ag, na, em)
                 processing_time :=
                   { total := pyRound3 (tl.endpointEnd - tl.endpointStart)
                     age_gender := pyRound3 (tl.ageEnd - tl.ageStart)
                     nationality := pyRound3 (tl.natEnd - tl.natStart)
                     emotion := pyRound3 (tl.emoEnd - tl.emoStart) }
                 audio_info := ⟨r.2.2, MAX_DURATION_SECONDS⟩
                 warning := if r.2.2 then some CLIP_WARNING else none },
           fs2, ev ++ [.predictedAgeGender, .predictedNationality, .predictedEmotion])

/-! ## Torch numerics, modelled from the spec -/

namespace Torch

/-- Sum of exponentials of a logit vector. -/
noncomputable def sumExp {n : ℕ} (x : Fin (n+1) → ℝ) : ℝ := ∑ j, Real.exp (x j)

/-- Modelled from the spec: `torch.nn.functional.softmax` — each entry's
exponential over the sum of exponentials. -/
noncomputable def softmaxP {n : ℕ} (x : Fin (n+1) → ℝ) (i : Fin (n+1)) : ℝ :=
  Real.exp (x i) / sumExp x

/-- First-maximum scan: fold left over the candidate indices, replacing the
current best only on strict improvement (so the earliest maximum wins). -/
noncomputable def firstMax {n : ℕ} (f : Fin (n+1) → ℝ) :
    List (Fin (n+1)) → Fin (n+1) → Fin (n+1)
  | [], b => b
  | j :: l, b => firstMax f l (if f b < f j then j else b)

/-- Modelled from the spec: `torch.argmax` — the index of the first maximal
entry of the vector. -/
noncomputable def torchArgmax {n : ℕ} (f : Fin (n+1) → ℝ) : Fin (n+1) :=
  firstMax f (List.finRange (n+1)) 0

/-- Modelled from the spec: `torch.topk` — the `k` largest entries' indices,
value-descending, ties broken by index order; realized by repeated
first-maximum selection. -/
noncomputable def topkAux {n : ℕ} (f : Fin (n+1) → ℝ) :
    ℕ → List (Fin (n+1)) → List (Fin (n+1))
  | 0, _ => []
  | _ + 1, [] => []
  | k + 1, j :: l =>
      let m := firstMax f l j
      m :: topkAux f k ((j :: l).erase m)

/-- Embeds `torch.topk` over the full index range. -/
noncomputable def topk {n : ℕ} (f : Fin (n+1) → ℝ) (k : ℕ) : List (Fin (n+1)) :=
  topkAux f k (List.finRange (n+1))

end Torch

/-! ## Age & gender adapter (`src/backend/models/age_and_gender_model.py`) -/

namespace AgeGenderModel

/-- The backend's raw outputs for one signal (`interface.process_signal`):
the normalized age score and the three gender logits (female, male, child). -/
structure Raw where
  age : ℝ
  female : ℝ
  male : ℝ
  child : ℝ

/-- Softmax over the three gender logits, in label order female, male,
child (`np.exp(values) / np.sum(np.exp(values))`). -/
noncomputable def genderProbs (r : Raw) : ℝ × ℝ × ℝ :=
  let s : ℝ := Real.exp r.female + Real.exp r.male + Real.exp r.child
  (Real.exp r.female / s, Real.exp r.male / s, Real.exp r.child / s)

/-- Modelled from the spec: `np.argmax` on the three probabilities — index of
the first maximal entry. -/
noncomputable def argmax3 (a b c : ℝ) : ℕ :=
  if b ≤ a ∧ c ≤ a then 0 else if c ≤ b then 1 else 2

/-- The order the code lists the gender labels in. -/
def gender_labels : List String := ["female", "male", "child"]

/-- The `gender` part of the adapter's result. -/
structure GenderResult where
  predicted_gender : String
  probabilities : List (String × ℝ)
  confidence : ℝ

/-- The adapter's full result. -/
structure Result where
  predicted_age : ℝ
  gender : GenderResult

/-- The output decoding of `AgeGenderModel.predict` (lines 104-137): age
scaled by 100, softmax over the gender logits, argmax label, max
probability as confidence. -/
noncomputable def decodeOutput (r : Raw) : Result :=
  let p := genderProbs r
  { predicted_age := r.age * 100
    gender :=
      { predicted_gender := gender_labels.getD (argmax3 p.1 p.2.1 p.2.2) ""
        probabilities := [("female", p.1), ("male", p.2.1), ("child", p.2.2)]
        confidence := max p.1 (max p.2.1 p.2.2) } }

/-- Adapter state: the backend handle and interface, `None` until `load()`
succeeds. -/
structure State where
  model : Option Unit
  interface : Option Unit

/-- Embeds `AgeGenderModel.predict` (lines 100-139): guard on the not-loaded state,
then decode the backend output. -/
noncomputable def predict (st : State) (raw : Raw) : Except String Result :=
  match st.model, st.interface with
  | some _, some _ => .ok (decodeOutput raw)
  | _, _ => .error ("Model not loaded. Call load() first.")

end AgeGenderModel

/-! ## Nationality adapter (`src/backend/models/nationality_model.py`) -/

namespace NationalityModel

/-- The adapter's result. -/
structure Result where
  predicted_language : String
  confidence : ℝ
  top_languages : List (String × ℝ)

/-- The output decoding of `NationalityModel.predict` (lines 45-86) over the
backend's logit vector `x` and label map `labels` (`id2label`): softmax,
top-5 by probability, argmax of the raw logits as the predicted language,
its probability as confidence. -/
noncomputable def decodeOutput {n : ℕ} (labels : Fin (n+1) → String)
    (x : Fin (n+1) → ℝ) : Result :=
  let pid := Torch.torchArgmax x
  { predicted_language := labels pid
    confidence := Torch.softmaxP x pid
    top_languages := (Torch.topk (Torch.softmaxP x) 5).map
      (fun i => (labels i, Torch.softmaxP x i)) }

/-- Adapter state: processor and model, `None` until `load()` succeeds. -/
structure State where
  processor : Option Unit
  model : Option Unit

/-- Embeds `NationalityModel.predict`: guard on the not-loaded state, then decode. -/
noncomputable def predict {n : ℕ} (st : State) (labels : Fin (n+1) → String)
    (x : Fin (n+1) → ℝ) : Except String Result :=
  match st.model, st.processor with
  | some _, some _ => .ok (decodeOutput labels x)
  | _, _ => .error ("Model not loaded. Call load() first.")

end NationalityModel

/-! ## Emotion adapter (`src/backend/models/emotions_model.py`) -/

namespace EmotionModel

/-- The hard-coded mapping from the backend's generic labels to emotion
names (lines 12-21). -/
def EMOTION_MAPPING : List (String × String) :=
  [("LABEL_0", "angry"), ("LABEL_1", "calm"), ("LABEL_2", "disgust"),
   ("LABEL_3", "fearful"), ("LABEL_4", "happy"), ("LABEL_5", "neutral"),
   ("LABEL_6", "sad"), ("LABEL_7", "surprised")]

/-- The per-label translation done in `load` (lines 60-66): map through
`EMOTION_MAPPING`, lowercase the raw label as fallback. -/
def mapLabel (raw : String) : String :=
  match EMOTION_MAPPING.lookup raw with
  | some e => e
  | none => raw.toLower

/-- Embeds `self.emotion_labels` built by `load` from the backend's `id2label`
(the id-indexed list of raw labels). -/
def buildLabels (rawLabels : List String) : List String := rawLabels.map mapLabel

/-- Indexing `self.emotion_labels[id]` for an eight-label backend. -/
def labelFun (rawLabels : List String) : Fin 8 → String :=
  fun i => (buildLabels rawLabels).getD (i : ℕ) ""

/-- The adapter's result. -/
structure Result where
  predicted_emotion : String
  confidence : ℝ
  all_emotions : List (String × ℝ)

/-- The output decoding of `EmotionModel.predict` (lines 94-115): softmax
over the logits, argmax of the softmax as predicted id, its label and
probability, and the full per-label distribution. -/
noncomputable def decodeOutput {n : ℕ} (labels : Fin (n+1) → String)
    (x : Fin (n+1) → ℝ) : Result :=
  let p := Torch.softmaxP x
  let pid := Torch.torchArgmax p
  { predicted_emotion := labels pid
    confidence := p pid
    all_emotions := (List.finRange (n+1)).map (fun i => (labels i, p i)) }

/-- Adapter state: processor and model, `None` until `load()` succeeds. -/
structure State where
  processor : Option Unit
  model : Option Unit

/-- Embeds `EmotionModel.predict`: guard on the not-loaded state, then decode. -/
noncomputable def predict {n : ℕ} (st : State) (labels : Fin (n+1) → String)
    (x : Fin (n+1) → ℝ) : Except String Result :=
  match st.model, st.processor with
  | some _, some _ => .ok (decodeOutput labels x)
  | _, _ => .error ("Model not loaded. Call load() first.")

end EmotionModel

/-- The emotion list advertised by the root endpoint
(`src/backend/main.py` line 239). -/
def root_emotions : List String :=
  ["angry", "disgust", "fear", "happy", "neutral", "sad", "surprise"]

/-! ## Claims C1 and C2 -/

/-- Helper: over ℚ, `len / 16000 ≤ maxd ↔ len ≤ maxd * 16000` for naturals. -/
theorem duration_le_iff (len maxd : ℕ) :
    ((len : ℚ) / (SAMPLING_RATE : ℚ)) ≤ (maxd : ℚ) ↔ len ≤ maxd * SAMPLING_RATE := by
  rw [div_le_iff₀ (by norm_num [SAMPLING_RATE])]
  rw [show (maxd : ℚ) * (SAMPLING_RATE : ℚ) = ((maxd * SAMPLING_RATE : ℕ) : ℚ) by
    push_cast; ring]
  exact_mod_cast Iff.rfl

/-- The clipped signal's length is the minimum of the input length and the
sample bound. -/
theorem clip_fst_length (s : List ℚ) (maxd : ℕ) :
    (clip_audio_to_max_duration s SAMPLING_RATE maxd).1.length
      = min s.length (maxd * SAMPLING_RATE) := by
  unfold clip_audio_to_max_duration
  by_cases h : ((s.length : ℚ) / (SAMPLING_RATE : ℚ)) ≤ (maxd : ℚ)
  · rw [if_pos h]
    have hle : s.length ≤ maxd * SAMPLING_RATE := (duration_le_iff _ _).1 h
    simp [Nat.min_eq_left hle]
  · rw [if_neg h]
    have hgt : ¬ s.length ≤ maxd * SAMPLING_RATE := fun hh => h ((duration_le_iff _ _).2 hh)
    simp only [List.length_take]
    omega

/-- A signal already within the duration bound is passed through unclipped. -/
theorem clip_noclip (s : List ℚ) (maxd : ℕ) (h : s.length ≤ maxd * SAMPLING_RATE) :
    clip_audio_to_max_duration s SAMPLING_RATE maxd = (s, false) := by
  unfold clip_audio_to_max_duration
  rw [if_pos ((duration_le_iff _ _).2 h)]

/-- Normal form of `preprocess_audio`: the returned rate is always 16000,
the shape is the clipped mono signal, the dtype float32. -/
theorem preprocess_audio_eq (a : NpArray) (sr : ℕ) :
    preprocess_audio a sr =
      (⟨.oneD (clip_audio_to_max_duration
                (if sr ≠ SAMPLING_RATE then librosa_resample a.shape.asMono sr SAMPLING_RATE
                 else a.shape.asMono) SAMPLING_RATE).1, .float32⟩,
       SAMPLING_RATE,
       (clip_audio_to_max_duration
                (if sr ≠ SAMPLING_RATE then librosa_resample a.shape.asMono sr SAMPLING_RATE
                 else a.shape.asMono) SAMPLING_RATE).2) := by
  by_cases h : sr = SAMPLING_RATE <;>
    simp [preprocess_audio, Shape.asMono, h]

/-- C1: for every decoded signal (any channel count, any native rate, any
length), `preprocess_audio` returns a one-channel signal at 16000 Hz of at
most `MAX_DURATION_SECONDS * 16000` samples with float32 dtype, and it is
idempotent: applying it to its own output at native rate 16000 returns that
output unchanged (with `wasClipped = false`). -/
theorem preprocess_audio_normalizes (a : NpArray) (sr : ℕ) :
    ((preprocess_audio a sr).1.shape.channelCount = 1) ∧
    ((preprocess_audio a sr).2.1 = SAMPLING_RATE) ∧
    ((preprocess_audio a sr).1.shape.monoSamples.length ≤ MAX_DURATION_SECONDS * SAMPLING_RATE) ∧
    ((preprocess_audio a sr).1.dtype = DType.float32) ∧
    (preprocess_audio (preprocess_audio a sr).1 SAMPLING_RATE
      = ((preprocess_audio a sr).1, SAMPLING_RATE, false)) := by
  rw [preprocess_audio_eq a sr]
  set s2 : List ℚ :=
    (if sr ≠ SAMPLING_RATE then librosa_resample a.shape.asMono sr SAMPLING_RATE
     else a.shape.asMono) with hs2
  have hlen : (clip_audio_to_max_duration s2 SAMPLING_RATE).1.length
      ≤ MAX_DURATION_SECONDS * SAMPLING_RATE := by
    rw [clip_fst_length]
    exact min_le_right _ _
  refine ⟨rfl, rfl, hlen, rfl, ?_⟩
  rw [preprocess_audio_eq]
  simp only [Shape.asMono, ne_eq, not_true_eq_false, if_false]
  rw [clip_noclip _ _ hlen]

/-- C2: for a mono 16000 Hz signal, `clip_audio_to_max_duration` returns the
exact prefix `take (max_duration * 16000)` with flag `true` when the duration
strictly exceeds the bound, and the unchanged signal with flag `false`
otherwise; the result's length is `min (length) (max_duration * 16000)` and
the result is always an initial segment (a `take`) of the input. -/
theorem clip_audio_spec (s : List ℚ) (maxd : ℕ) :
    (clip_audio_to_max_duration s SAMPLING_RATE maxd
      = if (maxd : ℚ) < (s.length : ℚ) / (SAMPLING_RATE : ℚ)
        then (s.take (maxd * SAMPLING_RATE), true)
        else (s, false)) ∧
    ((clip_audio_to_max_duration s SAMPLING_RATE maxd).1.length
      = min s.length (maxd * SAMPLING_RATE)) ∧
    ((clip_audio_to_max_duration s SAMPLING_RATE maxd).1
      = s.take ((clip_audio_to_max_duration s SAMPLING_RATE maxd).1.length)) := by
  refine ⟨?_, clip_fst_length s maxd, ?_⟩
  · by_cases h : ((s.length : ℚ) / (SAMPLING_RATE : ℚ)) ≤ (maxd : ℚ)
    · rw [if_neg (not_lt.2 h)]
      unfold clip_audio_to_max_duration
      rw [if_pos h]
    · rw [if_pos (not_le.1 h)]
      unfold clip_audio_to_max_duration
      rw [if_neg h]
  · rw [clip_fst_length s maxd]
    by_cases h : ((s.length : ℚ) / (SAMPLING_RATE : ℚ)) ≤ (maxd : ℚ)
    · have hle : s.length ≤ maxd * SAMPLING_RATE := (duration_le_iff _ _).1 h
      unfold clip_audio_to_max_duration
      rw [if_pos h]
      simp [Nat.min_eq_left hle]
    · have hge : maxd * SAMPLING_RATE ≤ s.length := by
        by_contra hc
        exact h ((duration_le_iff _ _).2 (le_of_not_le hc))
      unfold clip_audio_to_max_duration
      rw [if_neg h]
      simp [Nat.min_eq_right hge]

/-! ## Claim C5: collision behaviour of the generated temp paths -/

theorem digitChar_ne_underscore : ∀ d : ℕ, d < 10 → Nat.digitChar d ≠ '_' := by decide

theorem digitChar_inj_below_ten :
    ∀ d1 : ℕ, d1 < 10 → ∀ d2 : ℕ, d2 < 10 → Nat.digitChar d1 = Nat.digitChar d2 → d1 = d2 := by
  decide

theorem pyNatChars_no_underscore (n : ℕ) : ∀ c ∈ pyNatChars n, c ≠ '_' := by
  intro c hc
  unfold pyNatChars at hc
  by_cases h : n = 0
  · rw [if_pos h] at hc
    simp at hc
    subst hc
    decide
  · rw [if_neg h] at hc
    rw [List.mem_reverse, List.mem_map] at hc
    obtain ⟨d, hd, rfl⟩ := hc
    exact digitChar_ne_underscore d (Nat.digits_lt_base (by norm_num) hd)

theorem map_digitChar_inj {l1 l2 : List ℕ} (h1 : ∀ x ∈ l1, x < 10) (h2 : ∀ x ∈ l2, x < 10)
    (h : l1.map Nat.digitChar = l2.map Nat.digitChar) : l1 = l2 := by
  induction l1 generalizing l2 with
  | nil =>
    cases l2 with
    | nil => rfl
    | cons d t => simp at h
  | cons d t ih =>
    cases l2 with
    | nil => simp at h
    | cons d2 t2 =>
      simp only [List.map_cons, List.cons.injEq] at h
      have hd : d = d2 :=
        digitChar_inj_below_ten d (h1 d (by simp)) d2 (h2 d2 (by simp)) h.1
      have ht : t = t2 := ih (fun x hx => h1 x (by simp [hx])) (fun x hx => h2 x (by simp [hx])) h.2
      rw [hd, ht]

theorem pyNatChars_inj {a b : ℕ} (h : pyNatChars a = pyNatChars b) : a = b := by
  have key : ∀ m : ℕ, m ≠ 0 → ((Nat.digits 10 m).map Nat.digitChar).reverse ≠ ['0'] := by
    intro m hm hcon
    have hmap : (Nat.digits 10 m).map Nat.digitChar = ['0'] := by
      rw [← List.reverse_inj, hcon]
      rfl
    cases hdig : Nat.digits 10 m with
    | nil => rw [hdig] at hmap; simp at hmap
    | cons d t =>
      rw [hdig] at hmap
      simp only [List.map_cons, List.cons.injEq, List.map_eq_nil_iff] at hmap
      have hd10 : d < 10 := Nat.digits_lt_base (by norm_num) (by rw [hdig]; simp)
      have hd0 : d = 0 := digitChar_inj_below_ten d hd10 0 (by norm_num) hmap.1
      have hm0 : m = 0 := by
        rw [← Nat.ofDigits_digits 10 m, hdig, hmap.2, hd0]
        simp [Nat.ofDigits]
      exact hm hm0
  unfold pyNatChars at h
  by_cases ha : a = 0 <;> by_cases hb : b = 0
  · rw [ha, hb]
  · rw [if_pos ha, if_neg hb] at h
    exact absurd h.symm (key b hb)
  · rw [if_neg ha, if_pos hb] at h
    exact absurd h (key a ha)
  · rw [if_neg ha, if_neg hb, List.reverse_inj] at h
    have hd : Nat.digits 10 a = Nat.digits 10 b :=
      map_digitChar_inj (fun x hx => Nat.digits_lt_base (by norm_num) hx)
        (fun x hx => Nat.digits_lt_base (by norm_num) hx) h
    rw [← Nat.ofDigits_digits 10 a, ← Nat.ofDigits_digits 10 b, hd]

/-- Splitting at the first separator is unambiguous when the part before the
separator never contains it. -/
theorem append_sep_inj :
    ∀ (a1 a2 b1 b2 : List Char), (∀ c ∈ a1, c ≠ '_') → (∀ c ∈ a2, c ≠ '_') →
      a1 ++ '_' :: b1 = a2 ++ '_' :: b2 → a1 = a2 ∧ b1 = b2 := by
  intro a1
  induction a1 with
  | nil =>
    intro a2 b1 b2 _ h2 h
    cases a2 with
    | nil => simpa using h
    | cons c t =>
      simp only [List.nil_append, List.cons_append, List.cons.injEq] at h
      exact absurd h.1.symm (h2 c (by simp))
  | cons c t ih =>
    intro a2 b1 b2 h1 h2 h
    cases a2 with
    | nil =>
      simp only [List.nil_append, List.cons_append, List.cons.injEq] at h
      exact absurd h.1 (h1 c (by simp))
    | cons c2 t2 =>
      simp only [List.cons_append, List.cons.injEq] at h
      obtain ⟨ht, hb⟩ := ih t2 b1 b2 (fun x hx => h1 x (by simp [hx]))
        (fun x hx => h2 x (by simp [hx])) h.2
      exact ⟨by rw [h.1, ht], hb⟩

theorem tempPath_data (now : ℕ) (f : String) :
    (tempPath now f).data = "uploads/temp_".data ++ (pyNatChars now ++ '_' :: f.data) := by
  simp only [tempPath, tempName, UPLOAD_FOLDER, pyStr, String.data_append]
  simp [List.append_assoc]

/-- C5 (amended): two generated temp paths coincide exactly when both the
integer-second timestamp and the uploaded filename coincide; in particular
distinct concurrent requests are only guaranteed distinct paths when they
differ in second-granularity arrival time or in filename. -/
theorem tempPath_eq_iff (t1 t2 : ℕ) (f1 f2 : String) :
    tempPath t1 f1 = tempPath t2 f2 ↔ (t1 = t2 ∧ f1 = f2) := by
  constructor
  · intro h
    have hd : (tempPath t1 f1).data = (tempPath t2 f2).data := by rw [h]
    rw [tempPath_data, tempPath_data] at hd
    have hd2 := List.append_inj_right hd rfl
    obtain ⟨hnum, hrest⟩ := append_sep_inj _ _ _ _
      (pyNatChars_no_underscore t1) (pyNatChars_no_underscore t2) hd2
    exact ⟨pyNatChars_inj hnum, String.ext hrest⟩
  · rintro ⟨rfl, rfl⟩
    rfl

/-- C5 (counterexample to the claim as stated): two distinct in-flight
requests — same second-granularity timestamp, same claimed filename,
different request identity — receive the identical temp path. -/
theorem tempPath_collision_counterexample :
    ((100, "a.wav", 0) : ℕ × String × ℕ) ≠ ((100, "a.wav", 1) : ℕ × String × ℕ) ∧
      tempPath 100 ("a.wav") = tempPath 100 ("a.wav") :=
  ⟨by decide, rfl⟩

/-! ## Claim C3: the temp file is removed on every exit path -/

/-- C3: for a valid filename, the temp path is never in the resulting file
system, the run both writes and removes it (removal being the last event),
on every exit path — success, decode failure, or preprocessing failure; and
the Flask variant likewise never retains its saved upload. -/
theorem temp_file_always_removed (fs : Finset String) (now : ℕ) (filename : String)
    (env : Env) (fs2 : Finset String) (ld hfp : Bool) (f2 sec : String) (env2 : FlaskEnv)
    (h : filename ≠ "" ∧ allowed_file filename = true)
    (h2 : ld = true ∧ hfp = true ∧ f2 ≠ "" ∧ allowed_file f2 = true) :
    (tempPath now filename ∉ (process_audio_file fs now filename env).2.1) ∧
    (PEvent.wroteTemp (tempPath now filename) ∈ (process_audio_file fs now filename env).2.2) ∧
    ((process_audio_file fs now filename env).2.2.getLast?
      = some (PEvent.removedTemp (tempPath now filename))) ∧
    ((UPLOAD_FOLDER ++ "/" ++ sec) ∉ (predict_from_file fs2 ld hfp f2 sec env2).2) := by
  obtain ⟨h1, hA⟩ := h
  obtain ⟨hld, hfp', hf2, hA2⟩ := h2
  constructor
  · unfold process_audio_file
    rw [if_neg h1, if_neg (by simp [hA])]
    rcases env.decode with msg | ⟨audio, sr⟩
    · exact Finset.not_mem_erase _ _
    · by_cases hp : env.preprocessFails <;> simp [hp, Finset.not_mem_erase]
  constructor
  · unfold process_audio_file
    rw [if_neg h1, if_neg (by simp [hA])]
    rcases env.decode with msg | ⟨audio, sr⟩
    · simp
    · by_cases hp : env.preprocessFails <;> simp [hp]
  constructor
  · unfold process_audio_file
    rw [if_neg h1, if_neg (by simp [hA])]
    rcases env.decode with msg | ⟨audio, sr⟩
    · simp
    · by_cases hp : env.preprocessFails <;> simp [hp]
  · unfold predict_from_file
    rw [if_neg (by simp [hld]), if_neg (by simp [hfp']), if_neg hf2, if_pos hA2]
    rcases env2.decode with msg | d
    · exact Finset.not_mem_erase _ _
    · by_cases hp : env2.predictFails <;> simp [hp, Finset.not_mem_erase]

/-- C3 witness at a concrete request. -/
theorem temp_file_always_removed_witness :
    (("a.wav" : String) ≠ "" ∧ allowed_file ("a.wav") = true) ∧
    ((true = true ∧ true = true ∧ ("b.mp3" : String) ≠ "" ∧ allowed_file ("b.mp3") = true)) ∧
    ((tempPath 7 ("a.wav") ∉
        (process_audio_file ∅ 7 ("a.wav")
          ⟨.ok (⟨.oneD [0], .float64⟩, 16000), false⟩).2.1) ∧
     (PEvent.wroteTemp (tempPath 7 ("a.wav")) ∈
        (process_audio_file ∅ 7 ("a.wav")
          ⟨.ok (⟨.oneD [0], .float64⟩, 16000), false⟩).2.2) ∧
     ((process_audio_file ∅ 7 ("a.wav")
          ⟨.ok (⟨.oneD [0], .float64⟩, 16000), false⟩).2.2.getLast?
        = some (PEvent.removedTemp (tempPath 7 ("a.wav")))) ∧
     ((UPLOAD_FOLDER ++ "/" ++ "b.mp3") ∉
        (predict_from_file ∅ true true ("b.mp3") ("b.mp3") ⟨.ok ([0], 16000), false⟩).2)) :=
  ⟨⟨by decide, by decide⟩, ⟨rfl, rfl, by decide, by decide⟩,
    temp_file_always_removed ∅ 7 ("a.wav") ⟨.ok (⟨.oneD [0], .float64⟩, 16000), false⟩
      ∅ true true ("b.mp3") ("b.mp3") ⟨.ok ([0], 16000), false⟩
      ⟨by decide, by decide⟩ ⟨rfl, rfl, by decide, by decide⟩⟩

/-! ## Claim C7: filename validation happens before any work -/

/-- C7: an empty filename is rejected with "No file selected", any other
invalid filename (no dot, or extension outside the allowed set) with the
invalid-file-type message; in both cases the file system is untouched and no
step (temp write, decode, preprocess) has run.  The final conjunct
characterizes `allowed_file`'s failure as exactly "no extension or extension
outside {wav, mp3, flac, m4a}". -/
theorem upload_validation_rejects_early (fs : Finset String) (now : ℕ)
    (filename : String) (env : Env)
    (h : filename = "" ∨ allowed_file filename = false) :
    ((process_audio_file fs now filename env).1 =
      .error (if filename = "" then ⟨400, "No file selected"⟩
              else ⟨400, "Invalid file type. Allowed: wav, mp3, flac, m4a"⟩)) ∧
    ((process_audio_file fs now filename env).2.1 = fs) ∧
    ((process_audio_file fs now filename env).2.2 = []) ∧
    (allowed_file filename = false ↔
      (('.') ∉ filename.data ∨ lowerString (extAfterLastDot filename) ∉ ALLOWED_EXTENSIONS)) := by
  have hchar : allowed_file filename = false ↔
      (('.') ∉ filename.data ∨ lowerString (extAfterLastDot filename) ∉ ALLOWED_EXTENSIONS) := by
    simp [allowed_file]
    tauto
  by_cases h0 : filename = ""
  · refine ⟨?_, ?_, ?_, hchar⟩ <;>
      · unfold process_audio_file
        rw [if_pos h0]
        try simp [h0]
  · have hA : allowed_file filename = false := h.resolve_left h0
    refine ⟨?_, ?_, ?_, hchar⟩ <;>
      · unfold process_audio_file
        rw [if_neg h0, if_pos hA]
        try simp [h0]

/-- C7 witness at a concrete extensionless filename. -/
theorem upload_validation_rejects_early_witness :
    (("noext" : String) = "" ∨ allowed_file ("noext") = false) ∧
    (((process_audio_file ∅ 3 ("noext") ⟨.error ("bad"), false⟩).1 =
        .error (if ("noext" : String) = "" then ⟨400, "No file selected"⟩
                else ⟨400, "Invalid file type. Allowed: wav, mp3, flac, m4a"⟩)) ∧
     ((process_audio_file ∅ 3 ("noext") ⟨.error ("bad"), false⟩).2.1 = ∅) ∧
     ((process_audio_file ∅ 3 ("noext") ⟨.error ("bad"), false⟩).2.2 = []) ∧
     (allowed_file ("noext") = false ↔
       (('.') ∉ ("noext" : String).data ∨
         lowerString (extAfterLastDot ("noext")) ∉ ALLOWED_EXTENSIONS))) :=
  ⟨Or.inr (by decide),
    upload_validation_rejects_early ∅ 3 ("noext") ⟨.error ("bad"), false⟩ (Or.inr (by decide))⟩

/-! ## Claim C4: what `processing_time.total` actually is -/

/-- The rounding `pyRound3` is the identity on integers. -/
theorem pyRound3_int (z : ℤ) : pyRound3 ((z : ℤ) : ℚ) = (z : ℚ) := by
  have h1 : (1000 : ℚ) * (z : ℚ) = ((1000 * z : ℤ) : ℚ) := by push_cast; ring
  simp only [pyRound3, roundHalfEven, h1, Int.floor_intCast, sub_self]
  rw [if_pos (by norm_num)]
  push_cast
  field_simp

/-- Success path of `process_audio_file` in symbolic form. -/
theorem process_audio_file_ok (fs : Finset String) (now : ℕ) (filename : String)
    (a : NpArray) (sr : ℕ) (h1 : filename ≠ "") (h2 : allowed_file filename = true) :
    process_audio_file fs now filename ⟨.ok (a, sr), false⟩
      = (.ok (preprocess_audio a sr),
         (insert (tempPath now filename) fs).erase (tempPath now filename),
         [.wroteTemp (tempPath now filename), .decoded, .preprocessed,
          .removedTemp (tempPath now filename)]) := by
  unfold process_audio_file
  rw [if_neg h1, if_neg (by simp [h2])]
  rfl

/-- Fully-loaded success path of `predict_all` in symbolic form. -/
theorem predict_all_ok {α β γ : Type} (ag : α) (na : β) (em : γ) (tl : Timeline)
    (fs : Finset String) (now : ℕ) (filename : String) (a : NpArray) (sr : ℕ)
    (h1 : filename ≠ "") (h2 : allowed_file filename = true) :
    predict_all (Models.mk (some ag) (some na) (some em)) tl fs now filename
        ⟨.ok (a, sr), false⟩
      = (.ok { predictions := (ag, na, em)
               processing_time :=
                 ⟨pyRound3 (tl.endpointEnd - tl.endpointStart),
                  pyRound3 (tl.ageEnd - tl.ageStart),
                  pyRound3 (tl.natEnd - tl.natStart),
                  pyRound3 (tl.emoEnd - tl.emoStart)⟩
               audio_info := ⟨(preprocess_audio a sr).2.2, MAX_DURATION_SECONDS⟩
               warning := if (preprocess_audio a sr).2.2 then some CLIP_WARNING else none }
           ,
         (insert (tempPath now filename) fs).erase (tempPath now filename),
         [.wroteTemp (tempPath now filename), .decoded, .preprocessed,
          .removedTemp (tempPath now filename),
          .predictedAgeGender, .predictedNationality, .predictedEmotion]) := by
  unfold predict_all
  rw [process_audio_file_ok fs now filename a sr h1 h2]
  rfl

/-- Evaluation of a concrete, fully successful predict-all run: endpoint span
5 s, per-family spans 1 s each, unclipped mono input. -/
theorem predict_all_concrete_run :
    (predict_all (Models.mk (some ()) (some ()) (some ())) ⟨0, 1, 2, 2, 3, 3, 4, 5⟩
        ∅ 0 ("a.wav") ⟨.ok (⟨.oneD [0], .float64⟩, 16000), false⟩).1 =
      .ok { predictions := ((), (), ())
            processing_time := ⟨5, 1, 1, 1⟩
            audio_info := ⟨false, MAX_DURATION_SECONDS⟩
            warning := none } := by
  have hpre : preprocess_audio ⟨.oneD [0], .float64⟩ 16000
      = (⟨.oneD [0], .float32⟩, SAMPLING_RATE, false) := by
    have hclip : clip_audio_to_max_duration [0] SAMPLING_RATE = ([0], false) :=
      clip_noclip [0] MAX_DURATION_SECONDS (by norm_num [SAMPLING_RATE, MAX_DURATION_SECONDS])
    rw [preprocess_audio_eq]
    rw [if_neg (by norm_num [SAMPLING_RATE] : ¬ ((16000 : ℕ) ≠ SAMPLING_RATE))]
    rw [show Shape.asMono (Shape.oneD [0]) = [0] from rfl, hclip]
  rw [predict_all_ok () () () ⟨0, 1, 2, 2, 3, 3, 4, 5⟩ ∅ 0 ("a.wav")
    ⟨.oneD [0], .float64⟩ 16000 (by decide) (by decide)]
  rw [hpre]
  have e1 : (5 : ℚ) - 0 = ((5 : ℤ) : ℚ) := by norm_num
  have e2 : (2 : ℚ) - 1 = ((1 : ℤ) : ℚ) := by norm_num
  have e3 : (3 : ℚ) - 2 = ((1 : ℤ) : ℚ) := by norm_num
  have e4 : (4 : ℚ) - 3 = ((1 : ℤ) : ℚ) := by norm_num
  dsimp only
  rw [e1, e2, e3, e4]
  simp only [pyRound3_int]
  norm_num

/-- C4 (counterexample to the claim as stated): a concrete successful
predict-all run whose reported total (the whole endpoint span, 5 seconds)
differs from the sum of the three per-family prediction times (1+1+1). -/
theorem predict_all_total_ne_sum_counterexample :
    (((predict_all (Models.mk (some ()) (some ()) (some ())) ⟨0, 1, 2, 2, 3, 3, 4, 5⟩
        ∅ 0 ("a.wav") ⟨.ok (⟨.oneD [0], .float64⟩, 16000), false⟩).1.map
          (fun r => r.processing_time)).toOption
      = some ⟨5, 1, 1, 1⟩) ∧
    ((5 : ℚ) ≠ 1 + 1 + 1) := by
  refine ⟨?_, by norm_num⟩
  rw [predict_all_concrete_run]
  rfl

/-- C4 (amended): in every successful predict-all response the reported
per-family times are the rounded prediction spans and the reported total is
the rounded span of the whole endpoint — which dominates the sum of the
(unrounded) per-family spans, with equality only when ingestion,
normalization and bookkeeping take zero time. -/
theorem predict_all_total_is_endpoint_span {α β γ : Type} (ms : Models α β γ)
    (tl : Timeline) (fs : Finset String) (now : ℕ) (filename : String) (env : Env)
    (resp : AggregatedResponse α β γ) (hmono : tl.Mono)
    (hok : (predict_all ms tl fs now filename env).1 = .ok resp) :
    (resp.processing_time.total = pyRound3 (tl.endpointEnd - tl.endpointStart)) ∧
    (resp.processing_time.age_gender = pyRound3 (tl.ageEnd - tl.ageStart)) ∧
    (resp.processing_time.nationality = pyRound3 (tl.natEnd - tl.natStart)) ∧
    (resp.processing_time.emotion = pyRound3 (tl.emoEnd - tl.emoStart)) ∧
    ((tl.ageEnd - tl.ageStart) + (tl.natEnd - tl.natStart) + (tl.emoEnd - tl.emoStart)
      ≤ tl.endpointEnd - tl.endpointStart) := by
  obtain ⟨ag, na, em⟩ := ms
  obtain ⟨m1, m2, m3, m4, m5, m6, m7⟩ := hmono
  cases ag with
  | none => simp [predict_all] at hok
  | some a =>
    cases na with
    | none => simp [predict_all] at hok
    | some b =>
      cases em with
      | none => simp [predict_all] at hok
      | some c =>
        rcases hP : process_audio_file fs now filename env with ⟨pr, fs2, ev⟩
        cases pr with
        | error e => simp [predict_all, hP] at hok
        | ok r =>
          simp only [predict_all, hP] at hok
          injection hok with hok
          subst hok
          refine ⟨rfl, rfl, rfl, rfl, by linarith⟩

/-- C4 amended-claim witness at a concrete run. -/
theorem predict_all_total_is_endpoint_span_witness :
    (Timeline.Mono ⟨0, 1, 2, 2, 3, 3, 4, 5⟩) ∧
    ((predict_all (Models.mk (some ()) (some ()) (some ())) ⟨0, 1, 2, 2, 3, 3, 4, 5⟩
        ∅ 0 ("a.wav") ⟨.ok (⟨.oneD [0], .float64⟩, 16000), false⟩).1 =
      .ok { predictions := ((), (), ())
            processing_time := ⟨5, 1, 1, 1⟩
            audio_info := ⟨false, MAX_DURATION_SECONDS⟩
            warning := none }) ∧
    ((⟨5, 1, 1, 1⟩ : ProcessingTime).total
        = pyRound3 ((5 : ℚ) - 0) ∧
     (⟨5, 1, 1, 1⟩ : ProcessingTime).age_gender = pyRound3 ((2 : ℚ) - 1) ∧
     (⟨5, 1, 1, 1⟩ : ProcessingTime).nationality = pyRound3 ((3 : ℚ) - 2) ∧
     (⟨5, 1, 1, 1⟩ : ProcessingTime).emotion = pyRound3 ((4 : ℚ) - 3) ∧
     ((2 : ℚ) - 1) + ((3 : ℚ) - 2) + ((4 : ℚ) - 3) ≤ (5 : ℚ) - 0) := by
  refine ⟨by norm_num [Timeline.Mono], predict_all_concrete_run, ?_⟩
  exact predict_all_total_is_endpoint_span (Models.mk (some ()) (some ()) (some ()))
    ⟨0, 1, 2, 2, 3, 3, 4, 5⟩ ∅ 0 ("a.wav") ⟨.ok (⟨.oneD [0], .float64⟩, 16000), false⟩
    { predictions := ((), (), ())
      processing_time := ⟨5, 1, 1, 1⟩
      audio_info := ⟨false, MAX_DURATION_SECONDS⟩
      warning := none }
    (by norm_num [Timeline.Mono]) predict_all_concrete_run

/-! ## Claim C6: not-loaded guards fail fast -/

/-- C6: each adapter's `predict` fails with the not-loaded error before a
successful `load()`, and `predict_all` with any missing adapter fails
immediately, naming the first missing family in check order, without
touching the file system or performing any step (no temp write, no
ingestion, no normalization, no prediction). -/
theorem not_loaded_fails_fast {n : ℕ} {α β γ : Type}
    (stA : AgeGenderModel.State) (raw : AgeGenderModel.Raw)
    (stN : NationalityModel.State) (stE : EmotionModel.State)
    (labels : Fin (n+1) → String) (x : Fin (n+1) → ℝ)
    (ms : Models α β γ) (tl : Timeline) (fs : Finset String) (now : ℕ)
    (filename : String) (env : Env)
    (hA : stA.model = none ∨ stA.interface = none)
    (hN : stN.model = none ∨ stN.processor = none)
    (hE : stE.model = none ∨ stE.processor = none)
    (hM : ms.age_gender = none ∨ ms.nationality = none ∨ ms.emotion = none) :
    (AgeGenderModel.predict stA raw = .error ("Model not loaded. Call load() first.")) ∧
    (NationalityModel.predict stN labels x = .error ("Model not loaded. Call load() first.")) ∧
    (EmotionModel.predict stE labels x = .error ("Model not loaded. Call load() first.")) ∧
    ((predict_all ms tl fs now filename env).1 =
      .error ⟨500, if ms.age_gender.isNone then "Age & gender model not loaded"
                   else if ms.nationality.isNone then "Nationality model not loaded"
                   else "Emotion model not loaded"⟩) ∧
    ((predict_all ms tl fs now filename env).2.1 = fs) ∧
    ((predict_all ms tl fs now filename env).2.2 = []) := by
  obtain ⟨agm, agi⟩ := stA
  obtain ⟨npr, nmo⟩ := stN
  obtain ⟨epr, emo⟩ := stE
  obtain ⟨ag, na, em⟩ := ms
  replace hA : agm = none ∨ agi = none := hA
  replace hN : nmo = none ∨ npr = none := hN
  replace hE : emo = none ∨ epr = none := hE
  replace hM : ag = none ∨ na = none ∨ em = none := hM
  have G1 : AgeGenderModel.predict ⟨agm, agi⟩ raw
      = .error ("Model not loaded. Call load() first.") := by
    rcases hA with h | h
    · subst h; cases agi <;> rfl
    · subst h; cases agm <;> rfl
  have G2 : NationalityModel.predict ⟨npr, nmo⟩ labels x
      = .error ("Model not loaded. Call load() first.") := by
    rcases hN with h | h
    · subst h; cases npr <;> rfl
    · subst h; cases nmo <;> rfl
  have G3 : EmotionModel.predict ⟨epr, emo⟩ labels x
      = .error ("Model not loaded. Call load() first.") := by
    rcases hE with h | h
    · subst h; cases epr <;> rfl
    · subst h; cases emo <;> rfl
  refine ⟨G1, G2, G3, ?_, ?_, ?_⟩ <;>
    · rcases hM with h | h | h
      · subst h; rfl
      · subst h; cases ag <;> rfl
      · subst h; cases ag <;> cases na <;> rfl

/-- C6 witness at concrete unloaded states. -/
theorem not_loaded_fails_fast_witness :
    ((AgeGenderModel.State.mk none none).model = none ∨
      (AgeGenderModel.State.mk none none).interface = none) ∧
    ((Models.mk (none : Option Unit) (some ()) (some () : Option Unit)).age_gender = none ∨
      (Models.mk (none : Option Unit) (some ()) (some () : Option Unit)).nationality = none ∨
      (Models.mk (none : Option Unit) (some ()) (some () : Option Unit)).emotion = none) ∧
    ((AgeGenderModel.predict ⟨none, none⟩ ⟨0, 0, 0, 0⟩
        = .error ("Model not loaded. Call load() first.")) ∧
     (NationalityModel.predict (n := 0) ⟨none, none⟩ (fun _ => "eng") (fun _ => 0)
        = .error ("Model not loaded. Call load() first.")) ∧
     (EmotionModel.predict (n := 0) ⟨none, none⟩ (fun _ => "angry") (fun _ => 0)
        = .error ("Model not loaded. Call load() first.")) ∧
     ((predict_all (Models.mk (none : Option Unit) (some ()) (some () : Option Unit))
          ⟨0, 0, 0, 0, 0, 0, 0, 0⟩ ∅ 0 ("a.wav") ⟨.error ("x"), false⟩).1 =
        .error ⟨500,
          if (Models.mk (none : Option Unit) (some ()) (some () : Option Unit)).age_gender.isNone
          then "Age & gender model not loaded"
          else if (Models.mk (none : Option Unit) (some ()) (some () : Option Unit)).nationality.isNone
          then "Nationality model not loaded"
          else "Emotion model not loaded"⟩) ∧
     ((predict_all (Models.mk (none : Option Unit) (some ()) (some () : Option Unit))
          ⟨0, 0, 0, 0, 0, 0, 0, 0⟩ ∅ 0 ("a.wav") ⟨.error ("x"), false⟩).2.1 = ∅) ∧
     ((predict_all (Models.mk (none : Option Unit) (some ()) (some () : Option Unit))
          ⟨0, 0, 0, 0, 0, 0, 0, 0⟩ ∅ 0 ("a.wav") ⟨.error ("x"), false⟩).2.2 = [])) :=
  ⟨Or.inl rfl, Or.inl rfl,
    not_loaded_fails_fast ⟨none, none⟩ ⟨0, 0, 0, 0⟩ ⟨none, none⟩ ⟨none, none⟩
      (fun _ => "eng") (fun _ => 0)
      (Models.mk (none : Option Unit) (some ()) (some () : Option Unit))
      ⟨0, 0, 0, 0, 0, 0, 0, 0⟩ ∅ 0 ("a.wav") ⟨.error ("x"), false⟩
      (Or.inl rfl) (Or.inr rfl) (Or.inr rfl) (Or.inl rfl)⟩

/-! ## Claim C8: age/gender output decoding -/

/-- Normalizing three positive weights by their sum gives quantities in
[0, 1] summing to one. -/
theorem div_sum3_props (x y z : ℝ) (hx : 0 < x) (hy : 0 < y) (hz : 0 < z) :
    x / (x + y + z) + y / (x + y + z) + z / (x + y + z) = 1 ∧
    (0 ≤ x / (x + y + z) ∧ x / (x + y + z) ≤ 1) ∧
    (0 ≤ y / (x + y + z) ∧ y / (x + y + z) ≤ 1) ∧
    (0 ≤ z / (x + y + z) ∧ z / (x + y + z) ≤ 1) := by
  have hs : 0 < x + y + z := by linarith
  refine ⟨by field_simp, ⟨by positivity, ?_⟩, ⟨by positivity, ?_⟩, ⟨by positivity, ?_⟩⟩ <;>
    rw [div_le_one hs] <;> linarith

/-- The selector `argmax3` picks the first index attaining the maximum of the three. -/
theorem argmax3_max (a b c : ℝ) :
    (AgeGenderModel.argmax3 a b c = 0 ∧ max a (max b c) = a) ∨
    (AgeGenderModel.argmax3 a b c = 1 ∧ max a (max b c) = b) ∨
    (AgeGenderModel.argmax3 a b c = 2 ∧ max a (max b c) = c) := by
  unfold AgeGenderModel.argmax3
  by_cases h1 : b ≤ a ∧ c ≤ a
  · exact Or.inl ⟨if_pos h1, max_eq_left (max_le h1.1 h1.2)⟩
  · rw [if_neg h1]
    push_neg at h1
    by_cases h2 : c ≤ b
    · refine Or.inr (Or.inl ⟨if_pos h2, ?_⟩)
      have hab : a ≤ b := by
        by_contra hab
        push_neg at hab
        have := h1 (le_of_lt hab)
        linarith
      rw [max_eq_left h2, max_eq_right hab]
    · refine Or.inr (Or.inr ⟨if_neg h2, ?_⟩)
      push_neg at h2
      have hac : a ≤ c := by
        rcases le_or_lt b a with hba | hba
        · exact le_of_lt (h1 hba)
        · linarith
      rw [max_eq_right (le_of_lt h2), max_eq_right hac]

/-- C8: the decoded age is the raw score times 100; the gender probabilities
are the softmax of the three logits, so each lies in [0, 1] and they sum to
exactly 1 (a fortiori within 1e-6); the reported probability list pairs the
labels female, male, child with these values in order; the confidence is the
maximum probability; and the predicted gender is the label whose probability
equals that confidence. -/
theorem age_gender_decode_spec (r : AgeGenderModel.Raw) :
    ((AgeGenderModel.decodeOutput r).predicted_age = r.age * 100) ∧
    ((AgeGenderModel.genderProbs r).1 + (AgeGenderModel.genderProbs r).2.1 +
        (AgeGenderModel.genderProbs r).2.2 = 1) ∧
    (0 ≤ (AgeGenderModel.genderProbs r).1 ∧ (AgeGenderModel.genderProbs r).1 ≤ 1) ∧
    (0 ≤ (AgeGenderModel.genderProbs r).2.1 ∧ (AgeGenderModel.genderProbs r).2.1 ≤ 1) ∧
    (0 ≤ (AgeGenderModel.genderProbs r).2.2 ∧ (AgeGenderModel.genderProbs r).2.2 ≤ 1) ∧
    ((AgeGenderModel.decodeOutput r).gender.probabilities =
      [("female", (AgeGenderModel.genderProbs r).1),
       ("male", (AgeGenderModel.genderProbs r).2.1),
       ("child", (AgeGenderModel.genderProbs r).2.2)]) ∧
    ((AgeGenderModel.decodeOutput r).gender.confidence =
      max (AgeGenderModel.genderProbs r).1
        (max (AgeGenderModel.genderProbs r).2.1 (AgeGenderModel.genderProbs r).2.2)) ∧
    (((AgeGenderModel.decodeOutput r).gender.predicted_gender = "female" ∧
        (AgeGenderModel.decodeOutput r).gender.confidence = (AgeGenderModel.genderProbs r).1) ∨
     ((AgeGenderModel.decodeOutput r).gender.predicted_gender = "male" ∧
        (AgeGenderModel.decodeOutput r).gender.confidence = (AgeGenderModel.genderProbs r).2.1) ∨
     ((AgeGenderModel.decodeOutput r).gender.predicted_gender = "child" ∧
        (AgeGenderModel.decodeOutput r).gender.confidence = (AgeGenderModel.genderProbs r).2.2)) := by
  have H := div_sum3_props (Real.exp r.female) (Real.exp r.male) (Real.exp r.child)
    (Real.exp_pos _) (Real.exp_pos _) (Real.exp_pos _)
  have hgp : AgeGenderModel.genderProbs r =
      (Real.exp r.female / (Real.exp r.female + Real.exp r.male + Real.exp r.child),
       Real.exp r.male / (Real.exp r.female + Real.exp r.male + Real.exp r.child),
       Real.exp r.child / (Real.exp r.female + Real.exp r.male + Real.exp r.child)) := rfl
  refine ⟨rfl, ?_, ?_, ?_, ?_, rfl, rfl, ?_⟩
  · rw [hgp]; exact H.1
  · rw [hgp]; exact H.2.1
  · rw [hgp]; exact H.2.2.1
  · rw [hgp]; exact H.2.2.2
  · have HA := argmax3_max (AgeGenderModel.genderProbs r).1
      (AgeGenderModel.genderProbs r).2.1 (AgeGenderModel.genderProbs r).2.2
    have hpg : (AgeGenderModel.decodeOutput r).gender.predicted_gender =
        AgeGenderModel.gender_labels.getD
          (AgeGenderModel.argmax3 (AgeGenderModel.genderProbs r).1
            (AgeGenderModel.genderProbs r).2.1 (AgeGenderModel.genderProbs r).2.2) "" := rfl
    have hcf : (AgeGenderModel.decodeOutput r).gender.confidence =
        max (AgeGenderModel.genderProbs r).1
          (max (AgeGenderModel.genderProbs r).2.1 (AgeGenderModel.genderProbs r).2.2) := rfl
    rcases HA with ⟨hi, hm⟩ | ⟨hi, hm⟩ | ⟨hi, hm⟩
    · exact Or.inl ⟨by rw [hpg, hi]; rfl, by rw [hcf, hm]⟩
    · exact Or.inr (Or.inl ⟨by rw [hpg, hi]; rfl, by rw [hcf, hm]⟩)
    · exact Or.inr (Or.inr ⟨by rw [hpg, hi]; rfl, by rw [hcf, hm]⟩)

/-! ## Claim C9: nationality decoding -/

/-- The softmax denominator is positive. -/
theorem sumExp_pos {n : ℕ} (x : Fin (n+1) → ℝ) : 0 < Torch.sumExp x := by
  unfold Torch.sumExp
  exact Finset.sum_pos (fun j _ => Real.exp_pos (x j)) Finset.univ_nonempty

/-- Softmax is strictly monotone in the logits. -/
theorem softmaxP_lt_iff {n : ℕ} (x : Fin (n+1) → ℝ) (i j : Fin (n+1)) :
    Torch.softmaxP x i < Torch.softmaxP x j ↔ x i < x j := by
  unfold Torch.softmaxP
  rw [div_lt_div_iff_of_pos_right (sumExp_pos x)]
  exact Real.exp_lt_exp

/-- The first-maximum scan splits its input at the selected position: before
it, strictly smaller values; overall, no larger value. -/
theorem firstMax_split {n : ℕ} (p : Fin (n+1) → ℝ) :
    ∀ (l : List (Fin (n+1))) (b : Fin (n+1)),
      ∃ l1 l2, b :: l = l1 ++ Torch.firstMax p l b :: l2 ∧
        (∀ k ∈ l1, p k < p (Torch.firstMax p l b)) ∧
        (∀ k ∈ b :: l, p k ≤ p (Torch.firstMax p l b)) := by
  intro l
  induction l with
  | nil =>
    intro b
    exact ⟨[], [], rfl, by simp, by simp [Torch.firstMax]⟩
  | cons j l ih =>
    intro b
    rw [show Torch.firstMax p (j :: l) b
          = Torch.firstMax p l (if p b < p j then j else b) from rfl]
    by_cases h : p b < p j
    · rw [if_pos h]
      obtain ⟨l1, l2, hsplit, hlt, hle⟩ := ih j
      have hjle : p j ≤ p (Torch.firstMax p l j) := hle j (by simp)
      refine ⟨b :: l1, l2, ?_, ?_, ?_⟩
      · rw [List.cons_append, ← hsplit]
      · intro k hk
        rcases List.mem_cons.1 hk with rfl | hk
        · exact lt_of_lt_of_le h hjle
        · exact hlt k hk
      · intro k hk
        rcases List.mem_cons.1 hk with rfl | hk
        · exact le_of_lt (lt_of_lt_of_le h hjle)
        · exact hle k hk
    · rw [if_neg h]
      push_neg at h
      obtain ⟨l1, l2, hsplit, hlt, hle⟩ := ih b
      have hble : p b ≤ p (Torch.firstMax p l b) := hle b (by simp)
      cases l1 with
      | nil =>
        simp only [List.nil_append] at hsplit
        injection hsplit with hb hl
        refine ⟨[], j :: l2, ?_, by simp, ?_⟩
        · simp only [List.nil_append]
          rw [← hb, ← hl]
        · intro k hk
          rcases List.mem_cons.1 hk with rfl | hk
          · exact hble
          · rcases List.mem_cons.1 hk with rfl | hk
            · exact le_trans h hble
            · exact hle k (by simp [hk])
      | cons y l1' =>
        rw [List.cons_append] at hsplit
        injection hsplit with hb hl
        refine ⟨b :: j :: l1', l2, ?_, ?_, ?_⟩
        · simp only [List.cons_append]
          rw [← hl]
        · intro k hk
          have hby : p b < p (Torch.firstMax p l b) := by
            have := hlt y (by simp)
            rw [← hb] at this
            exact this
          rcases List.mem_cons.1 hk with rfl | hk
          · exact hby
          · rcases List.mem_cons.1 hk with rfl | hk
            · exact lt_of_le_of_lt h hby
            · exact hlt k (by simp [hk])
        · intro k hk
          rcases List.mem_cons.1 hk with rfl | hk
          · exact hble
          · rcases List.mem_cons.1 hk with rfl | hk
            · exact le_trans h hble
            · exact hle k (by simp [hk])

/-- The scan's result is one of the candidates. -/
theorem firstMax_mem {n : ℕ} (p : Fin (n+1) → ℝ) (l : List (Fin (n+1))) (b : Fin (n+1)) :
    Torch.firstMax p l b ∈ b :: l := by
  obtain ⟨l1, l2, hsplit, -, -⟩ := firstMax_split p l b
  rw [hsplit]
  exact List.mem_append.2 (Or.inr (by simp))

/-- The scan's result dominates all candidates. -/
theorem firstMax_le {n : ℕ} (p : Fin (n+1) → ℝ) (l : List (Fin (n+1))) (b : Fin (n+1)) :
    ∀ k ∈ b :: l, p k ≤ p (Torch.firstMax p l b) := by
  obtain ⟨-, -, -, -, hle⟩ := firstMax_split p l b
  exact hle

/-- On an index-sorted candidate list, the scan picks the least index among
the maxima. -/
theorem firstMax_first {n : ℕ} (p : Fin (n+1) → ℝ) (l : List (Fin (n+1))) (b : Fin (n+1))
    (hsort : (b :: l).Pairwise (· ≤ ·)) :
    ∀ k ∈ b :: l, p k = p (Torch.firstMax p l b) → Torch.firstMax p l b ≤ k := by
  obtain ⟨l1, l2, hsplit, hlt, -⟩ := firstMax_split p l b
  intro k hk hpk
  rw [hsplit] at hk hsort
  rcases List.mem_append.1 hk with hk1 | hk2
  · exact absurd hpk (hlt k hk1).ne
  · rcases List.mem_cons.1 hk2 with rfl | hk2
    · exact le_refl _
    · exact (List.pairwise_cons.1 (List.pairwise_append.1 hsort).2.1).1 k hk2

/-- The scan only compares scores, so any strictly-monotone rescoring picks
the same index. -/
theorem firstMax_congr {n : ℕ} (p x : Fin (n+1) → ℝ)
    (hpx : ∀ i j, p i < p j ↔ x i < x j) :
    ∀ (l : List (Fin (n+1))) (b : Fin (n+1)),
      Torch.firstMax p l b = Torch.firstMax x l b := by
  intro l
  induction l with
  | nil => intro b; rfl
  | cons j l ih =>
    intro b
    show Torch.firstMax p l (if p b < p j then j else b)
        = Torch.firstMax x l (if x b < x j then j else b)
    have hif : (if p b < p j then j else b) = (if x b < x j then j else b) := by
      by_cases h : x b < x j
      · rw [if_pos ((hpx b j).2 h), if_pos h]
      · rw [if_neg (fun hc => h ((hpx b j).1 hc)), if_neg h]
    rw [hif]
    exact ih _

/-- Top-k selection returns candidates from its input list. -/
theorem topkAux_subset {n : ℕ} (p : Fin (n+1) → ℝ) :
    ∀ (k : ℕ) (l : List (Fin (n+1))), ∀ i ∈ Torch.topkAux p k l, i ∈ l := by
  intro k
  induction k with
  | zero => intro l i hi; simp [Torch.topkAux] at hi
  | succ k ih =>
    intro l i hi
    cases l with
    | nil => simp [Torch.topkAux] at hi
    | cons j t =>
      rw [show Torch.topkAux p (k+1) (j :: t)
            = Torch.firstMax p t j
              :: Torch.topkAux p k ((j :: t).erase (Torch.firstMax p t j)) from rfl] at hi
      rcases List.mem_cons.1 hi with rfl | hi
      · exact firstMax_mem p t j
      · exact List.erase_sublist _ _ |>.subset (ih _ i hi)

/-- Top-k selection returns `min k (input length)` indices. -/
theorem topkAux_length {n : ℕ} (p : Fin (n+1) → ℝ) :
    ∀ (k : ℕ) (l : List (Fin (n+1))), (Torch.topkAux p k l).length = min k l.length := by
  intro k
  induction k with
  | zero => intro l; simp [Torch.topkAux]
  | succ k ih =>
    intro l
    cases l with
    | nil => simp [Torch.topkAux]
    | cons j t =>
      rw [show Torch.topkAux p (k+1) (j :: t)
            = Torch.firstMax p t j
              :: Torch.topkAux p k ((j :: t).erase (Torch.firstMax p t j)) from rfl]
      have hm : Torch.firstMax p t j ∈ j :: t := firstMax_mem p t j
      simp only [List.length_cons, ih, List.length_erase_of_mem hm]
      omega

/-- On a strictly index-sorted input, top-k is sorted by score descending,
ties broken by index ascending. -/
theorem topkAux_pairwise {n : ℕ} (p : Fin (n+1) → ℝ) :
    ∀ (k : ℕ) (l : List (Fin (n+1))), l.Pairwise (· < ·) →
      (Torch.topkAux p k l).Pairwise
        (fun a b => p b < p a ∨ (p a = p b ∧ a < b)) := by
  intro k
  induction k with
  | zero => intro l _; simp [Torch.topkAux]
  | succ k ih =>
    intro l hsort
    cases l with
    | nil => simp [Torch.topkAux]
    | cons j t =>
      rw [show Torch.topkAux p (k+1) (j :: t)
            = Torch.firstMax p t j
              :: Torch.topkAux p k ((j :: t).erase (Torch.firstMax p t j)) from rfl]
      have hnodup : (j :: t).Nodup := hsort.nodup
      have herase : ((j :: t).erase (Torch.firstMax p t j)).Pairwise (· < ·) :=
        List.Pairwise.sublist (List.erase_sublist _ _) hsort
      refine List.Pairwise.cons ?_ (ih _ herase)
      intro y hy
      have hymem : y ∈ (j :: t).erase (Torch.firstMax p t j) := topkAux_subset p k _ y hy
      have hy' : y ∈ j :: t := List.erase_sublist _ _ |>.subset hymem
      have hyle : p y ≤ p (Torch.firstMax p t j) := firstMax_le p t j y hy'
      rcases lt_or_eq_of_le hyle with hlt | heq
      · exact Or.inl hlt
      · refine Or.inr ⟨heq.symm, ?_⟩
        have hyne : y ≠ Torch.firstMax p t j :=
          ((List.Nodup.mem_erase_iff hnodup).1 hymem).1
        have hle2 : Torch.firstMax p t j ≤ y :=
          firstMax_first p t j (hsort.imp le_of_lt) y hy' heq
        exact lt_of_le_of_ne hle2 (Ne.symm hyne)

/-- The first entry of a (nonempty-k) top-k over the full range is the
first-maximum of the whole vector. -/
theorem topk_head {n : ℕ} (p : Fin (n+1) → ℝ) (k : ℕ) :
    (Torch.topk p (k+1)).head? = some (Torch.torchArgmax p) := by
  unfold Torch.topk Torch.torchArgmax
  rw [List.finRange_succ]
  rw [show Torch.topkAux p (k+1) (0 :: (List.finRange n).map Fin.succ)
        = Torch.firstMax p ((List.finRange n).map Fin.succ) 0
          :: Torch.topkAux p k
              ((0 :: (List.finRange n).map Fin.succ).erase
                (Torch.firstMax p ((List.finRange n).map Fin.succ) 0)) from rfl]
  rw [show Torch.firstMax p (0 :: (List.finRange n).map Fin.succ) 0
        = Torch.firstMax p ((List.finRange n).map Fin.succ)
            (if p 0 < p 0 then 0 else 0) from rfl]
  rw [ite_self]
  rfl

/-- The argmax over raw logits coincides with the argmax over their
softmax. -/
theorem torchArgmax_softmax_eq {n : ℕ} (x : Fin (n+1) → ℝ) :
    Torch.torchArgmax x = Torch.torchArgmax (Torch.softmaxP x) := by
  unfold Torch.torchArgmax
  exact (firstMax_congr (Torch.softmaxP x) x (fun i j => softmaxP_lt_iff x i j) _ _).symm

/-- The argmax attains the maximum. -/
theorem torchArgmax_isMax {n : ℕ} (p : Fin (n+1) → ℝ) :
    ∀ j, p j ≤ p (Torch.torchArgmax p) := by
  intro j
  unfold Torch.torchArgmax
  exact firstMax_le p (List.finRange (n+1)) 0 j
    (List.mem_cons_of_mem _ (List.mem_finRange j))

/-- C9: the top-languages list has exactly 5 entries, is the label/softmax
pairing of the top-5 index list, which is sorted by probability descending
with ties broken by index (label-set) order; its head is the argmax over the
raw logits, which coincides with the argmax over the softmax; the first
entry equals (predicted_language, confidence); and the confidence is the
argmax's softmax probability, the maximal one. -/
theorem nationality_decode_spec {n : ℕ} (labels : Fin (n+1) → String)
    (x : Fin (n+1) → ℝ) (hn : 5 ≤ n + 1) :
    ((NationalityModel.decodeOutput labels x).top_languages.length = 5) ∧
    ((NationalityModel.decodeOutput labels x).top_languages
      = (Torch.topk (Torch.softmaxP x) 5).map
          (fun i => (labels i, Torch.softmaxP x i))) ∧
    ((Torch.topk (Torch.softmaxP x) 5).Pairwise
      (fun a b => Torch.softmaxP x b < Torch.softmaxP x a ∨
        (Torch.softmaxP x a = Torch.softmaxP x b ∧ a < b))) ∧
    ((Torch.topk (Torch.softmaxP x) 5).head? = some (Torch.torchArgmax x)) ∧
    ((NationalityModel.decodeOutput labels x).top_languages.head?
      = some ((NationalityModel.decodeOutput labels x).predicted_language,
              (NationalityModel.decodeOutput labels x).confidence)) ∧
    ((NationalityModel.decodeOutput labels x).predicted_language
      = labels (Torch.torchArgmax x)) ∧
    ((NationalityModel.decodeOutput labels x).confidence
      = Torch.softmaxP x (Torch.torchArgmax x)) ∧
    (∀ j, Torch.softmaxP x j ≤ Torch.softmaxP x (Torch.torchArgmax x)) := by
  have hhead : (Torch.topk (Torch.softmaxP x) 5).head? = some (Torch.torchArgmax x) := by
    rw [torchArgmax_softmax_eq x]
    exact topk_head (Torch.softmaxP x) 4
  refine ⟨?_, rfl, ?_, hhead, ?_, rfl, rfl, ?_⟩
  · show ((Torch.topk (Torch.softmaxP x) 5).map
      (fun i => (labels i, Torch.softmaxP x i))).length = 5
    rw [List.length_map]
    unfold Torch.topk
    rw [topkAux_length]
    simp only [List.length_finRange]
    omega
  · exact topkAux_pairwise (Torch.softmaxP x) 5 _ (List.pairwise_lt_finRange (n+1))
  · show ((Torch.topk (Torch.softmaxP x) 5).map
        (fun i => (labels i, Torch.softmaxP x i))).head? = _
    rw [List.head?_map, hhead]
    rfl
  · intro j
    rw [torchArgmax_softmax_eq x]
    exact torchArgmax_isMax (Torch.softmaxP x) j

/-- C9 witness at a concrete five-label vector. -/
theorem nationality_decode_spec_witness :
    ((5 : ℕ) ≤ 4 + 1) ∧
    (((NationalityModel.decodeOutput (n := 4) (fun _ => "eng")
        (fun _ => 0)).top_languages.length = 5) ∧
     ((NationalityModel.decodeOutput (n := 4) (fun _ => "eng")
        (fun _ => 0)).top_languages
       = (Torch.topk (Torch.softmaxP (n := 4) (fun _ => 0)) 5).map
           (fun i => ((fun _ : Fin 5 => "eng") i,
             Torch.softmaxP (n := 4) (fun _ => 0) i))) ∧
     ((Torch.topk (Torch.softmaxP (n := 4) (fun _ => 0)) 5).Pairwise
       (fun a b => Torch.softmaxP (n := 4) (fun _ => 0) b
           < Torch.softmaxP (n := 4) (fun _ => 0) a ∨
         (Torch.softmaxP (n := 4) (fun _ => 0) a
           = Torch.softmaxP (n := 4) (fun _ => 0) b ∧ a < b))) ∧
     ((Torch.topk (Torch.softmaxP (n := 4) (fun _ => 0)) 5).head?
       = some (Torch.torchArgmax (n := 4) (fun _ => 0))) ∧
     ((NationalityModel.decodeOutput (n := 4) (fun _ => "eng")
        (fun _ => 0)).top_languages.head?
       = some ((NationalityModel.decodeOutput (n := 4) (fun _ => "eng")
                 (fun _ => 0)).predicted_language,
               (NationalityModel.decodeOutput (n := 4) (fun _ => "eng")
                 (fun _ => 0)).confidence)) ∧
     ((NationalityModel.decodeOutput (n := 4) (fun _ => "eng")
        (fun _ => 0)).predicted_language
       = (fun _ : Fin 5 => "eng") (Torch.torchArgmax (n := 4) (fun _ => 0))) ∧
     ((NationalityModel.decodeOutput (n := 4) (fun _ => "eng")
        (fun _ => 0)).confidence
       = Torch.softmaxP (n := 4) (fun _ => 0)
           (Torch.torchArgmax (n := 4) (fun _ => 0))) ∧
     (∀ j, Torch.softmaxP (n := 4) (fun _ => 0) j
       ≤ Torch.softmaxP (n := 4) (fun _ => 0)
           (Torch.torchArgmax (n := 4) (fun _ => 0)))) :=
  ⟨by norm_num,
    nationality_decode_spec (n := 4) (fun _ => "eng") (fun _ => 0) (by norm_num)⟩

/-! ## Claim C10: emotion decoding and the advertised label set -/

/-- Looking a label up in the id-indexed association list returns the value
at the first index carrying that label. -/
theorem lookup_label {n : ℕ} (L : Fin (n+1) → String) (v : Fin (n+1) → ℝ) :
    ∀ (l : List (Fin (n+1))) (i : Fin (n+1)), i ∈ l →
      (∀ j ∈ l, L j = L i → j = i) →
      (l.map (fun j => (L j, v j))).lookup (L i) = some (v i) := by
  intro l
  induction l with
  | nil => intro i hi _; simp at hi
  | cons j t ih =>
    intro i hi huniq
    simp only [List.map_cons]
    by_cases hbeq : L i = L j
    · have hj : j = i := huniq j (by simp) hbeq.symm
      subst hj
      simp [List.lookup]
    · have hne : (L i == L j) = false := beq_eq_false_iff_ne.2 hbeq
      have hit : i ∈ t := by
        rcases List.mem_cons.1 hi with rfl | hit
        · exact absurd rfl hbeq
        · exact hit
      simp only [List.lookup, hne]
      exact ih i hit (fun k hk he => huniq k (by simp [hk]) he)

/-- C10: when the backend reports the labels LABEL_0 … LABEL_7, the decoded
distribution is keyed by exactly the eight emotions angry, calm, disgust,
fearful, happy, neutral, sad, surprised (in id order); the predicted emotion
is the label of the argmax of the distribution, whose probability dominates
all entries; the confidence equals both that probability and the
`all_emotions` entry under the predicted emotion; any unmapped raw label
falls back to its lowercased name; and the produced key set differs from the
seven-emotion list advertised by the root endpoint ("calm" is served but not
advertised). -/
theorem emotion_decode_spec (raw : List String)
    (hraw : raw = ["LABEL_0", "LABEL_1", "LABEL_2", "LABEL_3",
                   "LABEL_4", "LABEL_5", "LABEL_6", "LABEL_7"])
    (x : Fin (7+1) → ℝ) :
    ((EmotionModel.decodeOutput (EmotionModel.labelFun raw) x).all_emotions.map Prod.fst
      = ["angry", "calm", "disgust", "fearful", "happy", "neutral", "sad", "surprised"]) ∧
    ((EmotionModel.decodeOutput (EmotionModel.labelFun raw) x).predicted_emotion
      = EmotionModel.labelFun raw (Torch.torchArgmax (Torch.softmaxP x))) ∧
    (∀ j, Torch.softmaxP x j
      ≤ Torch.softmaxP x (Torch.torchArgmax (Torch.softmaxP x))) ∧
    ((EmotionModel.decodeOutput (EmotionModel.labelFun raw) x).confidence
      = Torch.softmaxP x (Torch.torchArgmax (Torch.softmaxP x))) ∧
    ((EmotionModel.decodeOutput (EmotionModel.labelFun raw) x).all_emotions.lookup
        (EmotionModel.decodeOutput (EmotionModel.labelFun raw) x).predicted_emotion
      = some (EmotionModel.decodeOutput (EmotionModel.labelFun raw) x).confidence) ∧
    (∀ s, EmotionModel.EMOTION_MAPPING.lookup s = none →
      EmotionModel.mapLabel s = s.toLower) ∧
    (("calm" : String)
        ∈ (EmotionModel.decodeOutput (EmotionModel.labelFun raw) x).all_emotions.map Prod.fst ∧
      ("calm" : String) ∉ root_emotions) := by
  subst hraw
  refine ⟨rfl, rfl, ?_, rfl, ?_, ?_,
    by show ("calm" : String)
        ∈ ["angry", "calm", "disgust", "fearful", "happy", "neutral", "sad", "surprised"]
       decide,
    by decide⟩
  · intro j
    exact torchArgmax_isMax (Torch.softmaxP x) j
  · have hinj : ∀ a b : Fin 8,
        EmotionModel.labelFun ["LABEL_0", "LABEL_1", "LABEL_2", "LABEL_3",
          "LABEL_4", "LABEL_5", "LABEL_6", "LABEL_7"] a
          = EmotionModel.labelFun ["LABEL_0", "LABEL_1", "LABEL_2", "LABEL_3",
              "LABEL_4", "LABEL_5", "LABEL_6", "LABEL_7"] b → a = b := by
      decide
    exact lookup_label _ (Torch.softmaxP x) (List.finRange 8)
      (Torch.torchArgmax (Torch.softmaxP x))
      (List.mem_finRange _)
      (fun j _ he => hinj j _ he)
  · intro s hs
    unfold EmotionModel.mapLabel
    rw [hs]

/-- C10 witness at the uniform distribution. -/
theorem emotion_decode_spec_witness :
    ((["LABEL_0", "LABEL_1", "LABEL_2", "LABEL_3",
       "LABEL_4", "LABEL_5", "LABEL_6", "LABEL_7"] : List String)
      = ["LABEL_0", "LABEL_1", "LABEL_2", "LABEL_3",
         "LABEL_4", "LABEL_5", "LABEL_6", "LABEL_7"]) ∧
    (((EmotionModel.decodeOutput
        (EmotionModel.labelFun ["LABEL_0", "LABEL_1", "LABEL_2", "LABEL_3",
          "LABEL_4", "LABEL_5", "LABEL_6", "LABEL_7"])
        (fun _ => 0)).all_emotions.map Prod.fst
      = ["angry", "calm", "disgust", "fearful", "happy", "neutral", "sad", "surprised"]) ∧
     ((EmotionModel.decodeOutput
        (EmotionModel.labelFun ["LABEL_0", "LABEL_1", "LABEL_2", "LABEL_3",
          "LABEL_4", "LABEL_5", "LABEL_6", "LABEL_7"])
        (fun _ => 0)).predicted_emotion
      = EmotionModel.labelFun ["LABEL_0", "LABEL_1", "LABEL_2", "LABEL_3",
          "LABEL_4", "LABEL_5", "LABEL_6", "LABEL_7"]
          (Torch.torchArgmax (Torch.softmaxP (fun _ : Fin (7+1) => 0)))) ∧
     (∀ j, Torch.softmaxP (fun _ : Fin (7+1) => (0 : ℝ)) j
       ≤ Torch.softmaxP (fun _ : Fin (7+1) => (0 : ℝ))
           (Torch.torchArgmax (Torch.softmaxP (fun _ : Fin (7+1) => (0 : ℝ))))) ∧
     ((EmotionModel.decodeOutput
        (EmotionModel.labelFun ["LABEL_0", "LABEL_1", "LABEL_2", "LABEL_3",
          "LABEL_4", "LABEL_5", "LABEL_6", "LABEL_7"])
        (fun _ => 0)).confidence
      = Torch.softmaxP (fun _ : Fin (7+1) => (0 : ℝ))
          (Torch.torchArgmax (Torch.softmaxP (fun _ : Fin (7+1) => (0 : ℝ))))) ∧
     ((EmotionModel.decodeOutput
        (EmotionModel.labelFun ["LABEL_0", "LABEL_1", "LABEL_2", "LABEL_3",
          "LABEL_4", "LABEL_5", "LABEL_6", "LABEL_7"])
        (fun _ => 0)).all_emotions.lookup
          (EmotionModel.decodeOutput
            (EmotionModel.labelFun ["LABEL_0", "LABEL_1", "LABEL_2", "LABEL_3",
              "LABEL_4", "LABEL_5", "LABEL_6", "LABEL_7"])
            (fun _ => 0)).predicted_emotion
       = some (EmotionModel.decodeOutput
            (EmotionModel.labelFun ["LABEL_0", "LABEL_1", "LABEL_2", "LABEL_3",
              "LABEL_4", "LABEL_5", "LABEL_6", "LABEL_7"])
            (fun _ => 0)).confidence) ∧
     (∀ s, EmotionModel.EMOTION_MAPPING.lookup s = none →
       EmotionModel.mapLabel s = s.toLower) ∧
     (("calm" : String)
        ∈ (EmotionModel.decodeOutput
            (EmotionModel.labelFun ["LABEL_0", "LABEL_1", "LABEL_2", "LABEL_3",
              "LABEL_4", "LABEL_5", "LABEL_6", "LABEL_7"])
            (fun _ => 0)).all_emotions.map Prod.fst ∧
      ("calm" : String) ∉ root_emotions)) :=
  ⟨rfl, emotion_decode_spec
    ["LABEL_0", "LABEL_1", "LABEL_2", "LABEL_3",
     "LABEL_4", "LABEL_5", "LABEL_6", "LABEL_7"] rfl (fun _ => 0)⟩

end SpeechAnalysis
